import Mathlib

/-!
Verification of the sunrise-lamp scheduling and interpolation core.

This file gives a shallow embedding of the resilient scheduling engine of the
sunrise-lamp controller: the schedule cache (`schedule_manager.py`), the
interpolation engine (`transition_engine.py`) and the HTTP retry core
(`network_manager.py`), together with theorems about their behaviour.

Modelling conventions:
- Python floats are modelled as rationals (`ℚ`); all the arithmetic the
  theorems talk about is exact at that level.
- Unix timestamps are integers (`ℤ`); `time.time()` values are rationals.
- Python dictionaries coming from JSON are modelled by structures with
  `Option` fields (a `none` field models an absent key).
- Python's stable `list.sort(key=...)` is modelled by `List.insertionSort`,
  which is also a stable sort, over the key comparison.
- `time.mktime` applied to today's date at `h:m:00` is modelled as
  `dayStart + 3600*h + 60*m` where `dayStart` is an arbitrary integer
  parameter standing for today's local midnight.
- The `config` module is modelled as present (the import succeeds on the
  device); its values are a `Config` record, with `config_template` holding
  the concrete values of `config.template.py`.
-/

namespace SunriseLamp

/-- A processed schedule entry, as cached by `ScheduleManager`
(`schedule_manager.py` lines 52-58): a unix timestamp with normalized
warm/cool brightness values and an optional label. -/
structure ScheduleEntry where
  unix_time : ℤ
  warm : ℚ
  cool : ℚ
  label : String
deriving DecidableEq

/-- The read-only configuration values of `config.template.py` that the
scheduling core consumes. -/
structure Config where
  NIGHT_LIGHT_BRIGHTNESS : ℚ
  NIGHT_LIGHT_COOL : ℚ
  DEFAULT_SCHEDULE_MODE : String
  DEMO_CYCLE_DURATION_S : ℤ
  DEMO_SCHEDULE : List (ℤ × ℚ × ℚ × String)
deriving DecidableEq

/-- The concrete configuration shipped in `config.template.py`
(`NIGHT_LIGHT_BRIGHTNESS = 0.25`, `NIGHT_LIGHT_COOL = 0.0`,
`DEFAULT_SCHEDULE_MODE = "dayNight"`, `DEMO_CYCLE_DURATION_S = 15` and the
nine demo waypoints). -/
def config_template : Config :=
  { NIGHT_LIGHT_BRIGHTNESS := 1/4
    NIGHT_LIGHT_COOL := 0
    DEFAULT_SCHEDULE_MODE := "dayNight"
    DEMO_CYCLE_DURATION_S := 15
    DEMO_SCHEDULE :=
      [ (0, 10, 0, "night"),
        (2, 25, 0, "pre_dawn"),
        (4, 60, 20, "dawn"),
        (6, 100, 80, "sunrise"),
        (8, 90, 100, "midday"),
        (10, 80, 50, "afternoon"),
        (12, 50, 10, "sunset"),
        (14, 20, 0, "dusk"),
        (15, 10, 0, "night_end") ] }

/-- The mutable state of `ScheduleManager` (`schedule_manager.py` lines
108-115): current mode, the cached schedule (`None` until the first
successful fetch), the UTC offset and the time of the last successful
fetch. -/
structure CacheState where
  mode : String
  cached_schedule : Option (List ScheduleEntry)
  utc_offset : ℤ
  last_fetch_time : ℤ
deriving DecidableEq

/-- `ScheduleManager.get_entries` (`schedule_manager.py` lines 365-374):
the cached entries, or the empty list when nothing is cached. -/
def get_entries (st : CacheState) : List ScheduleEntry :=
  st.cached_schedule.getD []

/-- `ScheduleManager.is_demo_mode` (`schedule_manager.py` lines 317-323). -/
def is_demo_mode (st : CacheState) : Bool :=
  st.mode == "demo"

/-- Linear interpolation between the `prev` and `next` entries
(`transition_engine.py` lines 126-142): guard against non-positive
duration, compute the clamped progress and interpolate warm and cool
independently. -/
def interp (prev_entry next_entry : ScheduleEntry) (now : ℚ) : ℚ × ℚ :=
  let duration : ℤ := next_entry.unix_time - prev_entry.unix_time
  let elapsed : ℚ := now - (prev_entry.unix_time : ℚ)
  if duration ≤ 0 then (next_entry.warm, next_entry.cool)
  else
    let progress : ℚ := elapsed / (duration : ℚ)
    let progress : ℚ := max 0 (min 1 progress)
    (prev_entry.warm + (next_entry.warm - prev_entry.warm) * progress,
     prev_entry.cool + (next_entry.cool - prev_entry.cool) * progress)

/-- The scan of `transition_engine.py` lines 112-116: walk the entries in
order looking for the first one with `unix_time > now`; the accumulator
holds the previous element (`entries[i-1]`, `none` at index 0).  Returns
`none` when the loop finishes without a break (the `for`/`else` case). -/
def find_next (now : ℚ) : List ScheduleEntry → Option ScheduleEntry →
    Option (Option ScheduleEntry × ScheduleEntry)
  | [], _ => none
  | e :: rest, acc =>
    if (e.unix_time : ℚ) > now then some (acc, e)
    else find_next now rest (some e)

/-- Python's `%` on floats restricted to what demo mode uses: for a
positive modulus `b`, `a % b = a - b * ⌊a / b⌋`, which lies in `[0, b)`. -/
def pymod (a b : ℚ) : ℚ :=
  a - b * (⌊a / b⌋ : ℚ)

/-- The demo scan of `transition_engine.py` lines 170-176: like
`find_next` but comparing each entry's offset from `cycle_start` against
`cycle_time`. -/
def scan_offsets (cycle_start : ℤ) (cycle_time : ℚ) :
    List ScheduleEntry → Option ScheduleEntry →
    Option (Option ScheduleEntry × ScheduleEntry)
  | [], _ => none
  | e :: rest, acc =>
    if ((e.unix_time - cycle_start : ℤ) : ℚ) > cycle_time then some (acc, e)
    else scan_offsets cycle_start cycle_time rest (some e)

/-- The interpolation tail of `_get_demo_target`
(`transition_engine.py` lines 192-200): identical in shape to `interp`
but expressed on offsets from the cycle start, with the (already
adjusted) `cycle_time` as the evaluation point. -/
def interp_offsets (prev_entry next_entry : ScheduleEntry)
    (prev_offset next_offset : ℤ) (cycle_time : ℚ) : ℚ × ℚ :=
  let duration : ℤ := next_offset - prev_offset
  if duration ≤ 0 then (next_entry.warm, next_entry.cool)
  else
    let progress : ℚ := (cycle_time - (prev_offset : ℚ)) / (duration : ℚ)
    let progress : ℚ := max 0 (min 1 progress)
    (prev_entry.warm + (next_entry.warm - prev_entry.warm) * progress,
     prev_entry.cool + (next_entry.cool - prev_entry.cool) * progress)

/-- `TransitionEngine._get_demo_target` (`transition_engine.py` lines
144-202) on a non-empty entry list `e0 :: rest`: position within the
cycle by `pymod`, find the bracketing pair (defaulting to last/first on
wrap-around), apply the two offset adjustments and interpolate. -/
def get_demo_target (cycle_duration : ℤ) (e0 : ScheduleEntry)
    (rest : List ScheduleEntry) (now : ℚ) : ℚ × ℚ :=
  let entries := e0 :: rest
  let cycle_start := e0.unix_time
  let elapsed_total : ℚ := now - (cycle_start : ℚ)
  let cycle_time : ℚ := pymod elapsed_total (cycle_duration : ℚ)
  let pn : ScheduleEntry × ScheduleEntry :=
    match scan_offsets cycle_start cycle_time entries none with
    | some (some p, n) => (p, n)
    | some (none, n) => (List.getLastD rest e0, n)
    | none => (List.getLastD rest e0, e0)
  let prev_entry := pn.1
  let next_entry := pn.2
  let prev_offset : ℤ := prev_entry.unix_time - cycle_start
  let next_offset : ℤ := next_entry.unix_time - cycle_start
  let next_offset : ℤ :=
    if next_offset ≤ prev_offset then next_offset + cycle_duration
    else next_offset
  let cycle_time : ℚ :=
    if cycle_time < (prev_offset : ℚ) then cycle_time + (cycle_duration : ℚ)
    else cycle_time
  interp_offsets prev_entry next_entry prev_offset next_offset cycle_time

/-- `TransitionEngine.get_current_target` (`transition_engine.py` lines
83-142): night-light fallback on an empty cache, demo dispatch, then the
scan and the three outcomes (past all entries, before the first entry,
interpolate). -/
def get_current_target (cfg : Config) (st : CacheState) (now : ℚ) : ℚ × ℚ :=
  match get_entries st with
  | [] => (cfg.NIGHT_LIGHT_BRIGHTNESS, cfg.NIGHT_LIGHT_COOL)
  | e0 :: rest =>
    if is_demo_mode st then
      get_demo_target cfg.DEMO_CYCLE_DURATION_S e0 rest now
    else
      match find_next now (e0 :: rest) none with
      | none =>
        ((List.getLastD rest e0).warm, (List.getLastD rest e0).cool)
      | some (none, next_entry) => (next_entry.warm, next_entry.cool)
      | some (some prev_entry, next_entry) => interp prev_entry next_entry now

/-- A raw schedule entry as it arrives from the server in the legacy
shape: an `"HH:MM"` time string, brightness fields under either naming
convention, and an optional label.  Absent keys are `none`; the numeric
values are modelled as rationals. -/
structure RawEntry where
  time : Option String
  warm : Option ℚ
  warmBrightness : Option ℚ
  cool : Option ℚ
  coolBrightness : Option ℚ
  label : Option String
deriving DecidableEq

/-- A parsed schedule-endpoint JSON response (`schedule_manager.py`
`fetch_schedule`): optional `mode`, `utc_offset`, and an entry array
under either the `entries` or the `schedule` key.  `serverTime` is
carried by the response but ignored by the legacy fetch path. -/
structure ScheduleResponse where
  mode : Option String
  serverTime : Option ℤ
  utc_offset : Option ℤ
  entries : Option (List RawEntry)
  schedule : Option (List RawEntry)
deriving DecidableEq

/-- `ScheduleManager._validate_brightness` (`schedule_manager.py` lines
117-130) on a numeric value: within the 0-100 range. -/
def validate_brightness (value : ℚ) : Bool :=
  decide (0 ≤ value ∧ value ≤ 100)

/-- The body of the per-entry loop of `_compute_timestamps`
(`schedule_manager.py` lines 155-208): parse the `"HH:MM"` string,
range-check hour and minute, read the brightness values under either
key, validate them, and build the entry with
`unix_time = mktime(today at h:m) - utc_offset` and brightness divided
by 100.  Every `continue`/exception path yields `none`. -/
def process_raw_entry (dayStart utc_offset : ℤ) (entry : RawEntry) :
    Option ScheduleEntry :=
  let time_str := entry.time.getD ""
  if time_str.contains ':' then
    let parts := time_str.splitOn ":"
    match (parts.get? 0).bind String.toInt?, (parts.get? 1).bind String.toInt? with
    | some h, some m =>
      if 0 ≤ h ∧ h ≤ 23 ∧ 0 ≤ m ∧ m ≤ 59 then
        let warm := entry.warm.getD (entry.warmBrightness.getD 0)
        let cool := entry.cool.getD (entry.coolBrightness.getD 0)
        if validate_brightness warm && validate_brightness cool then
          let local_time : ℤ := dayStart + 3600 * h + 60 * m
          some { unix_time := local_time - utc_offset,
                 warm := warm / 100,
                 cool := cool / 100,
                 label := entry.label.getD "" }
        else none
      else none
    | _, _ => none
  else none

/-- Ordering of processed entries by timestamp, the sort key of
`result.sort(key=lambda x: x["unix_time"])`. -/
def entry_le (a b : ScheduleEntry) : Prop :=
  a.unix_time ≤ b.unix_time

instance : DecidableRel entry_le :=
  fun a b => inferInstanceAs (Decidable (a.unix_time ≤ b.unix_time))

instance : IsTotal ScheduleEntry entry_le :=
  ⟨fun a b => Int.le_total a.unix_time b.unix_time⟩

instance : IsTrans ScheduleEntry entry_le :=
  ⟨fun _ _ _ hab hbc => le_trans hab hbc⟩

/-- `ScheduleManager._compute_timestamps` (`schedule_manager.py` lines
132-212): process every raw entry, dropping invalid ones, then sort the
result by `unix_time` (Python's stable sort, modelled by the stable
`List.insertionSort`). -/
def compute_timestamps (dayStart utc_offset : ℤ) (entries : List RawEntry) :
    List ScheduleEntry :=
  List.insertionSort entry_le
    (entries.filterMap (process_raw_entry dayStart utc_offset))

/-- `ScheduleManager._setup_demo_schedule` (`schedule_manager.py` lines
276-315) with the `config` module present: fail on an empty demo
schedule, otherwise materialize each `(offset, warm_pct, cool_pct,
label)` waypoint at `now + offset` with brightness divided by 100, and
replace the cache. -/
def setup_demo_schedule (cfg : Config) (now : ℤ) (st : CacheState) :
    Bool × CacheState :=
  if cfg.DEMO_SCHEDULE = [] then (false, st)
  else
    let cycle_start := now
    let entries := cfg.DEMO_SCHEDULE.map (fun w =>
      ({ unix_time := cycle_start + w.1,
         warm := w.2.1 / 100,
         cool := w.2.2.1 / 100,
         label := w.2.2.2 } : ScheduleEntry))
    (true, { st with cached_schedule := some entries,
                     last_fetch_time := now,
                     utc_offset := 0 })

/-- `ScheduleManager.fetch_schedule` (`schedule_manager.py` lines
214-274) as a state transformer.  `response` is the outcome of
`http_get` (`none` models transport failure after all retries), `now` is
`int(time.time())` and `dayStart` parametrizes `_compute_timestamps`.
Returns the boolean result together with the new cache state, mirroring
the source's order of field assignments: `_mode` first, then (non-demo)
`_utc_offset`, then the emptiness checks, and only on success the
wholesale replacement of `_cached_schedule` and `_last_fetch_time`. -/
def fetch_schedule (cfg : Config) (response : Option ScheduleResponse)
    (now dayStart : ℤ) (st : CacheState) : Bool × CacheState :=
  match response with
  | none => (false, st)
  | some r =>
    let mode := r.mode.getD cfg.DEFAULT_SCHEDULE_MODE
    let st := { st with mode := mode }
    if mode = "demo" then setup_demo_schedule cfg now st
    else
      let utc_offset := r.utc_offset.getD 0
      let st := { st with utc_offset := utc_offset }
      let entries := r.entries.getD (r.schedule.getD [])
      if entries = [] then (false, st)
      else
        let computed := compute_timestamps dayStart utc_offset entries
        if computed = [] then (false, st)
        else
          (true, { st with cached_schedule := some computed,
                           last_fetch_time := now })

/-- Modelled from the spec: `ScheduleManager._check_clock_drift`, which
is exercised by the repository's tests (`tests/test_schedule_manager.py`,
`TestCheckClockDrift`) but absent from `src/schedule_manager.py`.  Per
the spec, a drift warning is emitted when the server-reported time
differs from the local clock by more than the default threshold of 300
seconds (strictly more: the tests require no warning at exactly 300). -/
def check_clock_drift (server_time now : ℤ) : Bool :=
  decide (300 < |server_time - now|)

/-- Modelled from the spec: the `serverTime` handling of `fetch()`.  If
the response carries a `serverTime`, the drift check runs against the
local clock; in every case the local clock is returned unmodified (the
spec: "emit a drift warning but do not correct the clock").  Returns
`(warned, clock')`. -/
def fetch_handle_server_time (serverTime : Option ℤ) (clock : ℤ) : Bool × ℤ :=
  match serverTime with
  | none => (false, clock)
  | some t => (check_clock_drift t clock, clock)

/-- A JSON value as decoded by `response.json()`, mirroring the Python
value universe the HTTP layer can hand back: a dict, a list, a string, a
number, a boolean or `None`. -/
inductive PyValue where
  | dict : List (String × PyValue) → PyValue
  | list : List PyValue → PyValue
  | str : String → PyValue
  | num : ℚ → PyValue
  | boolean : Bool → PyValue
  | nil : PyValue

/-- Whether a decoded JSON value is a dict (`isinstance(result, dict)`). -/
def PyValue.is_dict : PyValue → Bool
  | .dict _ => true
  | _ => false

/-- The observable outcome of one HTTP attempt inside the retry loop of
`_http_request_with_retry` (`network_manager.py` lines 444-475): a 200
response whose JSON body decoded to `v`, a non-200 status code, or an
exception (transport error, timeout, JSON decode error, ...). -/
inductive HttpAttempt where
  | success : PyValue → HttpAttempt
  | httpStatus : ℤ → HttpAttempt
  | failure : HttpAttempt

/-- `NetworkManager._http_request_with_retry` on the GET path
(`network_manager.py` lines 401-479), over the sequence of attempt
outcomes the environment produces (the list length plays the role of
`max_retries`): return the decoded body of the first 200 response,
or `None` once all attempts are exhausted.  Backoff delays do not affect
the returned value and are not modelled. -/
def http_request_with_retry_get : List HttpAttempt → Option PyValue
  | [] => none
  | a :: rest =>
    match a with
    | .success v => some v
    | _ => http_request_with_retry_get rest

/-- `NetworkManager.http_get` (`network_manager.py` lines 481-509):
run the retry core and return the result only when it is a dict
(`result if isinstance(result, dict) else None`). -/
def http_get (attempts : List HttpAttempt) :
    Option (List (String × PyValue)) :=
  match http_request_with_retry_get attempts with
  | some (PyValue.dict d) => some d
  | _ => none

/-- The per-entry part of the cache invariant: normalized brightness
values within `[0, 1]`. -/
def entry_invariant (e : ScheduleEntry) : Prop :=
  0 ≤ e.warm ∧ e.warm ≤ 1 ∧ 0 ≤ e.cool ∧ e.cool ≤ 1

/-- The cache invariant: whenever a schedule is cached, every entry has
warm and cool within `[0, 1]` and the entries are in non-decreasing
`unix_time` order. -/
def cache_invariant (st : CacheState) : Prop :=
  match st.cached_schedule with
  | none => True
  | some l => (∀ e ∈ l, entry_invariant e) ∧ List.Sorted entry_le l

/-- The hypotheses the demo-schedule path needs from the configuration:
waypoint offsets in non-decreasing order and percentage values within
0-100.  `config_template` satisfies them. -/
def demo_config_ok (cfg : Config) : Prop :=
  List.Sorted (fun a b : ℤ × ℚ × ℚ × String => a.1 ≤ b.1) cfg.DEMO_SCHEDULE ∧
  ∀ w ∈ cfg.DEMO_SCHEDULE,
    0 ≤ w.2.1 ∧ w.2.1 ≤ 100 ∧ 0 ≤ w.2.2.1 ∧ w.2.2.1 ≤ 100

theorem find_next_eq_none (now : ℚ) :
    ∀ (l : List ScheduleEntry) (acc : Option ScheduleEntry),
      (∀ e ∈ l, ¬ ((e.unix_time : ℚ) > now)) → find_next now l acc = none
  | [], _, _ => rfl
  | e :: rest, acc, h => by
    unfold find_next
    rw [if_neg (h e (List.mem_cons_self e rest))]
    exact find_next_eq_none now rest (some e)
      (fun x hx => h x (List.mem_cons_of_mem e hx))

theorem find_next_skip (now : ℚ) :
    ∀ (pre l : List ScheduleEntry) (acc : Option ScheduleEntry),
      (∀ e ∈ pre, ¬ ((e.unix_time : ℚ) > now)) →
      find_next now (pre ++ l) acc = find_next now l (pre.getLast?.or acc)
  | [], l, acc, _ => rfl
  | e :: pre, l, acc, h => by
    have hacc : (e :: pre).getLast?.or acc = pre.getLast?.or (some e) := by
      cases pre with
      | nil => simp
      | cons p ps =>
        rw [List.getLast?_cons_cons]
        cases hb : (p :: ps).getLast? with
        | none => exact absurd hb (by simp)
        | some b => simp
    rw [List.cons_append]
    unfold find_next
    rw [if_neg (h e (List.mem_cons_self e pre))]
    rw [find_next_skip now pre l (some e)
      (fun x hx => h x (List.mem_cons_of_mem e hx))]
    rw [hacc]
    cases l with
    | nil => rfl
    | cons x xs => rfl

theorem find_next_bracket (now : ℚ) :
    ∀ (l : List ScheduleEntry) (acc : Option ScheduleEntry),
      (∀ a, acc = some a → ¬ ((a.unix_time : ℚ) > now)) →
      ∀ p n, find_next now l acc = some (some p, n) →
        (p.unix_time : ℚ) ≤ now ∧ now < (n.unix_time : ℚ)
  | [], _, _, _, _, h => by simp [find_next] at h
  | e :: rest, acc, hacc, p, n, h => by
    unfold find_next at h
    by_cases he : (e.unix_time : ℚ) > now
    · rw [if_pos he] at h
      obtain ⟨h1, h2⟩ := Prod.mk.injEq .. ▸ Option.some.injEq .. ▸ h
      cases Option.some.inj h
      have hpa := hacc p
      constructor
      · exact le_of_not_lt (hpa rfl)
      · exact he
    · rw [if_neg he] at h
      exact find_next_bracket now rest (some e)
        (fun a ha => by cases Option.some.inj ha; exact he) p n h

theorem find_next_at_entry :
    ∀ (l : List ScheduleEntry) (acc : Option ScheduleEntry) (e : ScheduleEntry),
      List.Pairwise (fun a b => a.unix_time < b.unix_time) l → e ∈ l →
      (find_next (e.unix_time : ℚ) l acc = none ∧ l.getLast? = some e) ∨
      (∃ n, find_next (e.unix_time : ℚ) l acc = some (some e, n) ∧
        e.unix_time < n.unix_time)
  | [], _, _, _, hmem => absurd hmem (List.not_mem_nil _)
  | e0 :: rest, acc, e, hpw, hmem => by
    have h0 := List.pairwise_cons.mp hpw
    rcases List.mem_cons.mp hmem with rfl | hrest
    · unfold find_next
      rw [if_neg (lt_irrefl _)]
      cases rest with
      | nil => exact Or.inl ⟨rfl, rfl⟩
      | cons e1 r2 =>
        refine Or.inr ⟨e1, ?_, h0.1 e1 (List.mem_cons_self e1 r2)⟩
        unfold find_next
        rw [if_pos (by exact_mod_cast h0.1 e1 (List.mem_cons_self e1 r2))]
    · have hlt : e0.unix_time < e.unix_time := h0.1 e hrest
      unfold find_next
      rw [if_neg (not_lt.mpr (by exact_mod_cast le_of_lt hlt))]
      rcases find_next_at_entry rest (some e0) e h0.2 hrest with ⟨h1, h2⟩ | ⟨n, h1, h2⟩
      · left
        refine ⟨h1, ?_⟩
        cases rest with
        | nil => exact absurd hrest (List.not_mem_nil _)
        | cons e1 r2 => rw [List.getLast?_cons_cons]; exact h2
      · exact Or.inr ⟨n, h1, h2⟩

theorem interp_at_prev (p n : ScheduleEntry) (h : p.unix_time < n.unix_time) :
    interp p n (p.unix_time : ℚ) = (p.warm, p.cool) := by
  unfold interp
  rw [if_neg (by omega)]
  simp [sub_self, zero_div]

theorem get_current_target_cons (cfg : Config) (st : CacheState) (now : ℚ)
    (e0 : ScheduleEntry) (rest : List ScheduleEntry)
    (hd : is_demo_mode st = false) (he : get_entries st = e0 :: rest) :
    get_current_target cfg st now =
      match find_next now (e0 :: rest) none with
      | none => ((List.getLastD rest e0).warm, (List.getLastD rest e0).cool)
      | some (none, next_entry) => (next_entry.warm, next_entry.cool)
      | some (some prev_entry, next_entry) => interp prev_entry next_entry now := by
  unfold get_current_target
  rw [he, hd]
  simp

theorem sorted_le_getLastD :
    ∀ (e0 : ScheduleEntry) (rest : List ScheduleEntry),
      List.Sorted entry_le (e0 :: rest) →
      ∀ e ∈ e0 :: rest, e.unix_time ≤ (List.getLastD rest e0).unix_time
  | e0, [], _, e, hmem => by
    rcases List.mem_cons.mp hmem with rfl | h
    · exact le_refl _
    · exact absurd h (List.not_mem_nil _)
  | e0, e1 :: r2, hs, e, hmem => by
    have hs1 : List.Sorted entry_le (e1 :: r2) := hs.of_cons
    have hlast := sorted_le_getLastD e1 r2 hs1
    rw [List.getLastD_cons]
    rcases List.mem_cons.mp hmem with rfl | h
    · exact le_trans ((List.pairwise_cons.mp hs).1 e1 (List.mem_cons_self e1 r2))
        (hlast e1 (List.mem_cons_self e1 r2))
    · exact hlast e h

/-- C1: for every cache state with zero schedule entries,
`get_current_target()` returns the configured night-light pair (the
configured night-light brightness for warm and the configured cool
value) and never fails; the configured defaults are `(0.25, 0.0)`. -/
theorem night_light_fallback :
    (∀ (cfg : Config) (st : CacheState) (now : ℚ), get_entries st = [] →
      get_current_target cfg st now =
        (cfg.NIGHT_LIGHT_BRIGHTNESS, cfg.NIGHT_LIGHT_COOL)) ∧
    config_template.NIGHT_LIGHT_BRIGHTNESS = 1/4 ∧
    config_template.NIGHT_LIGHT_COOL = 0 := by
  refine ⟨fun cfg st now h => ?_, rfl, rfl⟩
  unfold get_current_target
  rw [h]

theorem night_light_fallback_witness :
    get_entries { mode := "dayNight", cached_schedule := none,
                  utc_offset := 0, last_fetch_time := 0 } = [] ∧
    get_current_target config_template
      { mode := "dayNight", cached_schedule := none,
        utc_offset := 0, last_fetch_time := 0 } 1000 = (1/4, 0) :=
  ⟨rfl, night_light_fallback.1 config_template _ 1000 rfl⟩

/-- C6: in non-demo mode, on a non-empty sorted schedule, evaluating at
or after the last entry's time returns the last entry's values verbatim
(however far past), and evaluating strictly before the first entry's
time returns the first entry's values verbatim. -/
theorem boundary_values (cfg : Config) (st : CacheState) (now : ℚ)
    (e0 : ScheduleEntry) (rest : List ScheduleEntry)
    (hd : is_demo_mode st = false)
    (he : get_entries st = e0 :: rest)
    (hs : List.Sorted entry_le (e0 :: rest)) :
    (((List.getLastD rest e0).unix_time : ℚ) ≤ now →
      get_current_target cfg st now =
        ((List.getLastD rest e0).warm, (List.getLastD rest e0).cool)) ∧
    (now < (e0.unix_time : ℚ) →
      get_current_target cfg st now = (e0.warm, e0.cool)) := by
  constructor
  · intro hlast
    rw [get_current_target_cons cfg st now e0 rest hd he]
    rw [find_next_eq_none now (e0 :: rest) none (fun e hmem => by
      have h1 : (e.unix_time : ℚ) ≤ ((List.getLastD rest e0).unix_time : ℚ) := by
        exact_mod_cast sorted_le_getLastD e0 rest hs e hmem
      exact not_lt.mpr (le_trans h1 hlast))]
  · intro hfirst
    rw [get_current_target_cons cfg st now e0 rest hd he]
    unfold find_next
    rw [if_pos hfirst]

theorem boundary_values_witness :
    (((List.getLastD [(⟨20, 1, 1, "b"⟩ : ScheduleEntry)] ⟨10, 1/2, 0, "a"⟩).unix_time : ℚ) ≤ 50) ∧
    get_current_target config_template
      { mode := "dayNight",
        cached_schedule := some [⟨10, 1/2, 0, "a"⟩, ⟨20, 1, 1, "b"⟩],
        utc_offset := 0, last_fetch_time := 0 } 50 =
      ((List.getLastD [(⟨20, 1, 1, "b"⟩ : ScheduleEntry)] ⟨10, 1/2, 0, "a"⟩).warm,
       (List.getLastD [(⟨20, 1, 1, "b"⟩ : ScheduleEntry)] ⟨10, 1/2, 0, "a"⟩).cool) :=
  ⟨by decide,
   (boundary_values config_template
      { mode := "dayNight",
        cached_schedule := some [⟨10, 1/2, 0, "a"⟩, ⟨20, 1, 1, "b"⟩],
        utc_offset := 0, last_fetch_time := 0 }
      50 ⟨10, 1/2, 0, "a"⟩ [⟨20, 1, 1, "b"⟩]
      rfl rfl (by decide)).1 (by decide)⟩

/-- C7: in non-demo mode, on a non-empty schedule with strictly
increasing times, evaluating `get_current_target()` exactly at an
entry's `unix_time` returns exactly that entry's `(warm, cool)`, whether
the entry is first, middle or last. -/
theorem entry_time_exact (cfg : Config) (st : CacheState)
    (e0 : ScheduleEntry) (rest : List ScheduleEntry) (e : ScheduleEntry)
    (hd : is_demo_mode st = false)
    (he : get_entries st = e0 :: rest)
    (hs : List.Pairwise (fun a b => a.unix_time < b.unix_time) (e0 :: rest))
    (hmem : e ∈ e0 :: rest) :
    get_current_target cfg st (e.unix_time : ℚ) = (e.warm, e.cool) := by
  rw [get_current_target_cons cfg st _ e0 rest hd he]
  rcases find_next_at_entry (e0 :: rest) none e hs hmem with ⟨h1, h2⟩ | ⟨n, h1, h2⟩
  · rw [h1]
    have hlast : List.getLastD rest e0 = e := by
      rw [List.getLast?_cons] at h2
      have := Option.some.inj h2
      rw [List.getLastD_eq_getLast?]
      exact this
    rw [hlast]
  · rw [h1]
    exact interp_at_prev e n h2

theorem entry_time_exact_witness :
    get_current_target config_template
      { mode := "dayNight",
        cached_schedule := some [⟨10, 1/2, 0, "a"⟩, ⟨20, 1, 1, "b"⟩, ⟨30, 0, 0, "c"⟩],
        utc_offset := 0, last_fetch_time := 0 }
      (((⟨20, 1, 1, "b"⟩ : ScheduleEntry).unix_time : ℚ)) = (1, 1) :=
  entry_time_exact config_template
    { mode := "dayNight",
      cached_schedule := some [⟨10, 1/2, 0, "a"⟩, ⟨20, 1, 1, "b"⟩, ⟨30, 0, 0, "c"⟩],
      utc_offset := 0, last_fetch_time := 0 }
    ⟨10, 1/2, 0, "a"⟩ [⟨20, 1, 1, "b"⟩, ⟨30, 0, 0, "c"⟩] ⟨20, 1, 1, "b"⟩
    rfl rfl (by decide) (by decide)

/-- C2: in non-demo mode, when the sorted schedule decomposes as
`pre ++ prev :: next :: post` with `prev` at or before `now` and `next`
strictly after `now`, `get_current_target()` returns, independently for
warm and cool, `prev + (next − prev) × clamp((now − prev.t)/(next.t −
prev.t), 0, 1)`; in particular the schedule `[(t0, 0.2, 0.0),
(t0+3600, 1.0, 1.0)]` evaluated at `t0+1800` yields `(0.6, 0.5)`. -/
theorem interpolation_formula :
    (∀ (cfg : Config) (st : CacheState) (now : ℚ)
       (pre post : List ScheduleEntry) (p n : ScheduleEntry),
      is_demo_mode st = false →
      get_entries st = pre ++ p :: n :: post →
      List.Sorted entry_le (pre ++ p :: n :: post) →
      (p.unix_time : ℚ) ≤ now →
      now < (n.unix_time : ℚ) →
      get_current_target cfg st now =
        (p.warm + (n.warm - p.warm) *
           max 0 (min 1 ((now - (p.unix_time : ℚ)) /
             ((n.unix_time : ℚ) - (p.unix_time : ℚ)))),
         p.cool + (n.cool - p.cool) *
           max 0 (min 1 ((now - (p.unix_time : ℚ)) /
             ((n.unix_time : ℚ) - (p.unix_time : ℚ)))))) ∧
    (∀ t0 : ℤ,
      get_current_target config_template
        { mode := "dayNight",
          cached_schedule := some [⟨t0, 1/5, 0, ""⟩, ⟨t0 + 3600, 1, 1, ""⟩],
          utc_offset := 0, last_fetch_time := 0 }
        ((t0 : ℚ) + 1800) = (3/5, 1/2)) := by
  have hA : ∀ (cfg : Config) (st : CacheState) (now : ℚ)
       (pre post : List ScheduleEntry) (p n : ScheduleEntry),
      is_demo_mode st = false →
      get_entries st = pre ++ p :: n :: post →
      List.Sorted entry_le (pre ++ p :: n :: post) →
      (p.unix_time : ℚ) ≤ now →
      now < (n.unix_time : ℚ) →
      get_current_target cfg st now =
        (p.warm + (n.warm - p.warm) *
           max 0 (min 1 ((now - (p.unix_time : ℚ)) /
             ((n.unix_time : ℚ) - (p.unix_time : ℚ)))),
         p.cool + (n.cool - p.cool) *
           max 0 (min 1 ((now - (p.unix_time : ℚ)) /
             ((n.unix_time : ℚ) - (p.unix_time : ℚ))))) := by
    intro cfg st now pre post p n hd he hs hp hn
    have hfind : find_next now (pre ++ p :: n :: post) none = some (some p, n) := by
      have hpre : ∀ x ∈ pre, ¬ ((x.unix_time : ℚ) > now) := by
        intro x hx
        have hxp : entry_le x p :=
          (List.pairwise_append.mp hs).2.2 x hx p (List.mem_cons_self p (n :: post))
        have hxq : (x.unix_time : ℚ) ≤ (p.unix_time : ℚ) := by exact_mod_cast hxp
        exact not_lt.mpr (le_trans hxq hp)
      rw [find_next_skip now pre (p :: n :: post) none hpre]
      unfold find_next
      rw [if_neg (not_lt.mpr hp)]
      unfold find_next
      rw [if_pos hn]
    have hdur : p.unix_time < n.unix_time := by
      have : (p.unix_time : ℚ) < (n.unix_time : ℚ) := lt_of_le_of_lt hp hn
      exact_mod_cast this
    cases hform : pre ++ p :: n :: post with
    | nil => exact absurd hform (List.append_ne_nil_of_right_ne_nil pre (by simp))
    | cons e0 rest =>
      rw [get_current_target_cons cfg st now e0 rest hd (hform ▸ he)]
      rw [← hform, hfind]
      show interp p n now = _
      unfold interp
      rw [if_neg (by omega : ¬ (n.unix_time - p.unix_time ≤ 0))]
      push_cast
      rfl
  refine ⟨hA, fun t0 => ?_⟩
  have hs2 : List.Sorted entry_le
      [(⟨t0, 1/5, 0, ""⟩ : ScheduleEntry), ⟨t0 + 3600, 1, 1, ""⟩] := by
    refine List.Pairwise.cons (fun b hb => ?_) (List.pairwise_singleton _ _)
    rw [List.mem_singleton] at hb
    subst hb
    show t0 ≤ t0 + 3600
    omega
  have := hA config_template
    { mode := "dayNight",
      cached_schedule := some [⟨t0, 1/5, 0, ""⟩, ⟨t0 + 3600, 1, 1, ""⟩],
      utc_offset := 0, last_fetch_time := 0 }
    ((t0 : ℚ) + 1800) [] [] ⟨t0, 1/5, 0, ""⟩ ⟨t0 + 3600, 1, 1, ""⟩
    rfl rfl hs2 (by push_cast; linarith) (by push_cast; linarith)
  rw [this]
  push_cast
  ring_nf
  norm_num

theorem interpolation_formula_witness :
    get_current_target config_template
      { mode := "dayNight",
        cached_schedule := some [⟨0, 1/5, 0, ""⟩, ⟨3600, 1, 1, ""⟩],
        utc_offset := 0, last_fetch_time := 0 } 1800 = (3/5, 1/2) := by
  have h := interpolation_formula.2 0
  simpa using h

/-- C9: `get_current_target()` never divides by zero — whenever the
bracketing pair has `next.unix_time − prev.unix_time ≤ 0` the
interpolation (in both the normal and the demo form) returns `next`'s
values without dividing; and when the scan of a sorted schedule selects
`prev` as the entry immediately preceding the first entry strictly after
`now`, the duration is strictly positive, so the degenerate branch is
unreachable in non-demo mode. -/
theorem division_guard :
    (∀ (p n : ScheduleEntry) (now : ℚ),
      n.unix_time - p.unix_time ≤ 0 → interp p n now = (n.warm, n.cool)) ∧
    (∀ (p n : ScheduleEntry) (prev_offset next_offset : ℤ) (t : ℚ),
      next_offset - prev_offset ≤ 0 →
      interp_offsets p n prev_offset next_offset t = (n.warm, n.cool)) ∧
    (∀ (l : List ScheduleEntry) (now : ℚ) (p n : ScheduleEntry),
      List.Sorted entry_le l →
      find_next now l none = some (some p, n) →
      0 < n.unix_time - p.unix_time) := by
  refine ⟨fun p n now h => ?_, fun p n po nxo t h => ?_, fun l now p n _ h => ?_⟩
  · unfold interp
    rw [if_pos h]
  · unfold interp_offsets
    rw [if_pos h]
  · obtain ⟨h1, h2⟩ := find_next_bracket now l none
      (fun a ha => Option.noConfusion ha) p n h
    have hlt : (p.unix_time : ℚ) < (n.unix_time : ℚ) := lt_of_le_of_lt h1 h2
    have : p.unix_time < n.unix_time := by exact_mod_cast hlt
    omega

theorem division_guard_witness :
    interp ⟨5, 1, 1, "p"⟩ ⟨5, 1/2, 1/3, "n"⟩ 7 = (1/2, 1/3) ∧
    interp_offsets ⟨0, 0, 0, "p"⟩ ⟨0, 1/2, 1/3, "n"⟩ 4 4 2 = (1/2, 1/3) ∧
    0 < (⟨10, 1, 1, "n"⟩ : ScheduleEntry).unix_time -
        (⟨0, 0, 0, "p"⟩ : ScheduleEntry).unix_time :=
  ⟨division_guard.1 ⟨5, 1, 1, "p"⟩ ⟨5, 1/2, 1/3, "n"⟩ 7 (by decide),
   division_guard.2.1 ⟨0, 0, 0, "p"⟩ ⟨0, 1/2, 1/3, "n"⟩ 4 4 2 (by decide),
   division_guard.2.2 [⟨0, 0, 0, "p"⟩, ⟨10, 1, 1, "n"⟩] 5 ⟨0, 0, 0, "p"⟩ ⟨10, 1, 1, "n"⟩
     (by decide) rfl⟩

theorem scan_offsets_eq_none (cs : ℤ) (ct : ℚ) :
    ∀ (l : List ScheduleEntry) (acc : Option ScheduleEntry),
      (∀ e ∈ l, ¬ (((e.unix_time - cs : ℤ) : ℚ) > ct)) →
      scan_offsets cs ct l acc = none
  | [], _, _ => rfl
  | e :: rest, acc, h => by
    unfold scan_offsets
    rw [if_neg (h e (List.mem_cons_self e rest))]
    exact scan_offsets_eq_none cs ct rest (some e)
      (fun x hx => h x (List.mem_cons_of_mem e hx))

theorem getLastD_mem :
    ∀ (e0 : ScheduleEntry) (rest : List ScheduleEntry),
      List.getLastD rest e0 ∈ e0 :: rest
  | _, [] => List.mem_cons_self _ _
  | e0, e1 :: r2 => by
    rw [List.getLastD_cons]
    exact List.mem_cons_of_mem e0 (getLastD_mem e1 r2)

/-- C5: in demo mode, on a non-empty entry list anchored at the first
entry, the target is computed at `cycle_time = pymod (now − cycle_start)
cycle_duration`; when no entry's offset from `cycle_start` exceeds
`cycle_time`, the last entry is paired with the first entry with
`cycle_duration` added to the first entry's effective offset (which is
`e0.unix_time − e0.unix_time = 0`), and the same interpolation formula
(`interp_offsets`) is applied unmodified. -/
theorem demo_wraparound (cycle_duration : ℤ) (e0 : ScheduleEntry)
    (rest : List ScheduleEntry) (now : ℚ)
    (hcd : 0 < cycle_duration)
    (hord : e0.unix_time ≤ (List.getLastD rest e0).unix_time)
    (hwrap : ∀ e ∈ e0 :: rest,
      ((e.unix_time - e0.unix_time : ℤ) : ℚ) ≤
        pymod (now - (e0.unix_time : ℚ)) (cycle_duration : ℚ)) :
    get_demo_target cycle_duration e0 rest now =
      interp_offsets (List.getLastD rest e0) e0
        ((List.getLastD rest e0).unix_time - e0.unix_time)
        ((e0.unix_time - e0.unix_time) + cycle_duration)
        (pymod (now - (e0.unix_time : ℚ)) (cycle_duration : ℚ)) := by
  have hnone : scan_offsets e0.unix_time
      (pymod (now - (e0.unix_time : ℚ)) (cycle_duration : ℚ)) (e0 :: rest) none = none :=
    scan_offsets_eq_none _ _ _ _ (fun e hm => not_lt.mpr (hwrap e hm))
  have hctlast : ¬ (pymod (now - (e0.unix_time : ℚ)) (cycle_duration : ℚ) <
      (((List.getLastD rest e0).unix_time - e0.unix_time : ℤ) : ℚ)) :=
    not_lt.mpr (hwrap _ (getLastD_mem e0 rest))
  simp only [get_demo_target, hnone]
  rw [if_pos (by omega : e0.unix_time - e0.unix_time ≤
        (List.getLastD rest e0).unix_time - e0.unix_time)]
  rw [if_neg hctlast]

theorem demo_wraparound_witness :
    (0 : ℤ) < 10 ∧
    ((⟨0, 1/10, 1/5, "a"⟩ : ScheduleEntry).unix_time ≤
      (List.getLastD [(⟨4, 1/2, 3/5, "b"⟩ : ScheduleEntry)] ⟨0, 1/10, 1/5, "a"⟩).unix_time) ∧
    get_demo_target 10 ⟨0, 1/10, 1/5, "a"⟩ [⟨4, 1/2, 3/5, "b"⟩] 7 =
      interp_offsets (List.getLastD [(⟨4, 1/2, 3/5, "b"⟩ : ScheduleEntry)] ⟨0, 1/10, 1/5, "a"⟩)
        ⟨0, 1/10, 1/5, "a"⟩
        ((List.getLastD [(⟨4, 1/2, 3/5, "b"⟩ : ScheduleEntry)] ⟨0, 1/10, 1/5, "a"⟩).unix_time -
          (⟨0, 1/10, 1/5, "a"⟩ : ScheduleEntry).unix_time)
        (((⟨0, 1/10, 1/5, "a"⟩ : ScheduleEntry).unix_time -
          (⟨0, 1/10, 1/5, "a"⟩ : ScheduleEntry).unix_time) + 10)
        (pymod (7 - (((⟨0, 1/10, 1/5, "a"⟩ : ScheduleEntry).unix_time : ℤ) : ℚ)) ((10 : ℤ) : ℚ)) :=
  ⟨by decide, by decide,
   demo_wraparound 10 ⟨0, 1/10, 1/5, "a"⟩ [⟨4, 1/2, 3/5, "b"⟩] 7
     (by decide) (by decide)
     (fun e hm => by
       rcases List.mem_cons.mp hm with rfl | hm2
       · norm_num [pymod]
       · rcases List.mem_singleton.mp hm2 with rfl
         norm_num [pymod])⟩

/-- C8: for every successful fetch response carrying a `serverTime`, a
drift warning is emitted exactly when the server time differs from the
local clock by more than the default 300-second threshold, and in every
case the local clock is returned unmodified. -/
theorem server_time_drift (serverTime : Option ℤ) (clock : ℤ) :
    (fetch_handle_server_time serverTime clock).2 = clock ∧
    (∀ t, serverTime = some t →
      ((fetch_handle_server_time serverTime clock).1 = true ↔ 300 < |t - clock|)) := by
  cases serverTime with
  | none => exact ⟨rfl, fun t ht => by cases ht⟩
  | some t0 =>
    refine ⟨rfl, fun t ht => ?_⟩
    cases Option.some.inj ht
    simp [fetch_handle_server_time, check_clock_drift]

theorem server_time_drift_witness :
    (fetch_handle_server_time (some 1000) 0).2 = 0 ∧
    ((fetch_handle_server_time (some 1000) 0).1 = true ↔ 300 < |(1000 : ℤ) - 0|) :=
  ⟨(server_time_drift (some 1000) 0).1,
   (server_time_drift (some 1000) 0).2 1000 rfl⟩

/-- C10: `http_get()` always returns a dict or `None` — whenever the
retry core yields a decoded value that is not a dict (for instance a 200
response whose JSON body is a list), `http_get()` returns `None`, and
whenever it returns a dict, that is exactly the dict the retry core
produced. -/
theorem http_get_dict_or_none (attempts : List HttpAttempt) :
    (∀ v, http_request_with_retry_get attempts = some v →
      v.is_dict = false → http_get attempts = none) ∧
    (∀ d, http_get attempts = some d →
      http_request_with_retry_get attempts = some (PyValue.dict d)) := by
  constructor
  · intro v hv hnd
    unfold http_get
    rw [hv]
    cases v with
    | dict d => simp [PyValue.is_dict] at hnd
    | list l => rfl
    | str s => rfl
    | num q => rfl
    | boolean b => rfl
    | nil => rfl
  · intro d hd
    unfold http_get at hd
    cases hres : http_request_with_retry_get attempts with
    | none => rw [hres] at hd; cases hd
    | some v =>
      rw [hres] at hd
      cases v with
      | dict l => cases Option.some.inj hd; rfl
      | list l => cases hd
      | str s => cases hd
      | num q => cases hd
      | boolean b => cases hd
      | nil => cases hd

theorem http_get_dict_or_none_witness :
    http_request_with_retry_get [HttpAttempt.success (PyValue.list [])] =
      some (PyValue.list []) ∧
    (PyValue.list []).is_dict = false ∧
    http_get [HttpAttempt.success (PyValue.list [])] = none :=
  ⟨rfl, rfl,
   (http_get_dict_or_none [HttpAttempt.success (PyValue.list [])]).1
     (PyValue.list []) rfl rfl⟩

/-- C3 counterexample: a failing fetch (HTTP response received, but with
an empty entry list) returns failure yet overwrites `mode` (from
`"demo"` to `"dayNight"`) and `utc_offset` (from 123 to 0), so not every
field of the previous cache state is left unchanged on every failing
run. -/
theorem fetch_atomicity_counterexample :
    fetch_schedule config_template
      (some { mode := some "dayNight", serverTime := none, utc_offset := some 0,
              entries := some [], schedule := none })
      50 0
      { mode := "demo", cached_schedule := some [⟨1, 1/2, 1/2, "x"⟩],
        utc_offset := 123, last_fetch_time := 7 } =
      (false, { mode := "dayNight", cached_schedule := some [⟨1, 1/2, 1/2, "x"⟩],
                utc_offset := 0, last_fetch_time := 7 }) ∧
    ("dayNight" ≠ "demo" ∧ (0 : ℤ) ≠ 123) := by
  refine ⟨?_, ?_, ?_⟩
  · simp [fetch_schedule]
  · decide
  · decide

/-- C3 amended: on transport failure (`http_get` returned `None`) the
whole cache state is left unchanged; on every failing run the cached
entry list and `last_fetch_time` are left unchanged (although `mode`
and, on the non-demo path, `utc_offset` may already have been
overwritten from the response before the failure is detected); on every
successful run the entry list is replaced wholesale — by the demo
entries materialized from the config on the demo path and by the
computed entries otherwise. -/
theorem fetch_atomicity (cfg : Config) (response : Option ScheduleResponse)
    (now dayStart : ℤ) (st : CacheState) :
    (response = none → fetch_schedule cfg response now dayStart st = (false, st)) ∧
    ((fetch_schedule cfg response now dayStart st).1 = false →
      (fetch_schedule cfg response now dayStart st).2.cached_schedule =
        st.cached_schedule ∧
      (fetch_schedule cfg response now dayStart st).2.last_fetch_time =
        st.last_fetch_time) ∧
    (∀ r, response = some r →
      (fetch_schedule cfg response now dayStart st).1 = true →
      (fetch_schedule cfg response now dayStart st).2.cached_schedule =
        some (if r.mode.getD cfg.DEFAULT_SCHEDULE_MODE = "demo"
          then cfg.DEMO_SCHEDULE.map (fun w =>
            ({ unix_time := now + w.1,
               warm := w.2.1 / 100,
               cool := w.2.2.1 / 100,
               label := w.2.2.2 } : ScheduleEntry))
          else compute_timestamps dayStart (r.utc_offset.getD 0)
            (r.entries.getD (r.schedule.getD [])))) := by
  cases response with
  | none => exact ⟨fun _ => rfl, fun _ => ⟨rfl, rfl⟩, fun r hr => by cases hr⟩
  | some r =>
    refine ⟨fun h => Option.noConfusion h, ?_, ?_⟩
    · simp only [fetch_schedule, setup_demo_schedule]
      split_ifs <;> intro hfail <;>
        first
          | exact ⟨rfl, rfl⟩
          | exact absurd hfail (by simp)
    · intro r2 hr2 hsucc
      cases Option.some.inj hr2
      by_cases hmode : r.mode.getD cfg.DEFAULT_SCHEDULE_MODE = "demo"
      · rw [if_pos hmode]
        simp only [fetch_schedule, setup_demo_schedule] at hsucc ⊢
        rw [if_pos hmode] at hsucc ⊢
        split_ifs at hsucc ⊢
        rfl
      · rw [if_neg hmode]
        simp only [fetch_schedule] at hsucc ⊢
        rw [if_neg hmode] at hsucc ⊢
        split_ifs at hsucc ⊢
        rfl

theorem fetch_atomicity_witness :
    fetch_schedule config_template none 50 0
      { mode := "dayNight", cached_schedule := none,
        utc_offset := 0, last_fetch_time := 0 } =
      (false, { mode := "dayNight", cached_schedule := none,
                utc_offset := 0, last_fetch_time := 0 }) ∧
    ((fetch_schedule config_template
        (some { mode := some "dayNight", serverTime := none, utc_offset := some 0,
                entries := some [], schedule := none })
        50 0
        { mode := "dayNight", cached_schedule := some [⟨1, 1/2, 1/2, "x"⟩],
          utc_offset := 0, last_fetch_time := 7 }).1 = false ∧
     (fetch_schedule config_template
        (some { mode := some "dayNight", serverTime := none, utc_offset := some 0,
                entries := some [], schedule := none })
        50 0
        { mode := "dayNight", cached_schedule := some [⟨1, 1/2, 1/2, "x"⟩],
          utc_offset := 0, last_fetch_time := 7 }).2.cached_schedule =
       some [⟨1, 1/2, 1/2, "x"⟩] ∧
     (fetch_schedule config_template
        (some { mode := some "dayNight", serverTime := none, utc_offset := some 0,
                entries := some [], schedule := none })
        50 0
        { mode := "dayNight", cached_schedule := some [⟨1, 1/2, 1/2, "x"⟩],
          utc_offset := 0, last_fetch_time := 7 }).2.last_fetch_time = 7) ∧
    ((fetch_schedule config_template
        (some { mode := some "demo", serverTime := none, utc_offset := none,
                entries := none, schedule := none })
        50 0
        { mode := "dayNight", cached_schedule := none,
          utc_offset := 0, last_fetch_time := 0 }).1 = true ∧
     (fetch_schedule config_template
        (some { mode := some "demo", serverTime := none, utc_offset := none,
                entries := none, schedule := none })
        50 0
        { mode := "dayNight", cached_schedule := none,
          utc_offset := 0, last_fetch_time := 0 }).2.cached_schedule =
       some (config_template.DEMO_SCHEDULE.map (fun w =>
         ({ unix_time := 50 + w.1,
            warm := w.2.1 / 100,
            cool := w.2.2.1 / 100,
            label := w.2.2.2 } : ScheduleEntry)))) :=
  ⟨(fetch_atomicity config_template none 50 0
      { mode := "dayNight", cached_schedule := none,
        utc_offset := 0, last_fetch_time := 0 }).1 rfl,
   ⟨rfl,
    ((fetch_atomicity config_template
        (some { mode := some "dayNight", serverTime := none, utc_offset := some 0,
                entries := some [], schedule := none })
        50 0
        { mode := "dayNight", cached_schedule := some [⟨1, 1/2, 1/2, "x"⟩],
          utc_offset := 0, last_fetch_time := 7 }).2.1 rfl).1,
    ((fetch_atomicity config_template
        (some { mode := some "dayNight", serverTime := none, utc_offset := some 0,
                entries := some [], schedule := none })
        50 0
        { mode := "dayNight", cached_schedule := some [⟨1, 1/2, 1/2, "x"⟩],
          utc_offset := 0, last_fetch_time := 7 }).2.1 rfl).2⟩,
   ⟨rfl,
    (fetch_atomicity config_template
        (some { mode := some "demo", serverTime := none, utc_offset := none,
                entries := none, schedule := none })
        50 0
        { mode := "dayNight", cached_schedule := none,
          utc_offset := 0, last_fetch_time := 0 }).2.2
      { mode := some "demo", serverTime := none, utc_offset := none,
        entries := none, schedule := none }
      rfl rfl⟩⟩

theorem process_raw_entry_invariant (dayStart utc_offset : ℤ)
    (raw : RawEntry) (e : ScheduleEntry)
    (h : process_raw_entry dayStart utc_offset raw = some e) :
    entry_invariant e := by
  unfold process_raw_entry at h
  dsimp only [] at h
  split at h
  · split at h
    · split at h
      · split at h
        · rename_i hval
          obtain ⟨hw, hc⟩ := Bool.and_eq_true _ _ ▸ hval
          have hwarm := of_decide_eq_true hw
          have hcool := of_decide_eq_true hc
          have he := Option.some.inj h
          subst he
          refine ⟨?_, ?_, ?_, ?_⟩
          · have := hwarm.1
            positivity
          · have := hwarm.2
            linarith
          · have := hcool.1
            positivity
          · have := hcool.2
            linarith
        · exact absurd h (by simp)
      · exact absurd h (by simp)
    · exact absurd h (by simp)
  · exact absurd h (by simp)

theorem compute_timestamps_invariant (dayStart utc_offset : ℤ)
    (entries : List RawEntry) :
    (∀ e ∈ compute_timestamps dayStart utc_offset entries, entry_invariant e) ∧
    List.Sorted entry_le (compute_timestamps dayStart utc_offset entries) := by
  constructor
  · intro e he
    rw [compute_timestamps, List.mem_insertionSort] at he
    obtain ⟨raw, _, hp⟩ := List.mem_filterMap.mp he
    exact process_raw_entry_invariant dayStart utc_offset raw e hp
  · exact List.sorted_insertionSort entry_le _

theorem setup_demo_invariant (cfg : Config) (now : ℤ) (st : CacheState)
    (hcfg : demo_config_ok cfg) (hst : cache_invariant st) :
    cache_invariant (setup_demo_schedule cfg now st).2 := by
  unfold setup_demo_schedule
  split_ifs with hds
  · exact hst
  · unfold cache_invariant
    refine ⟨?_, ?_⟩
    · intro e he
      rw [List.mem_map] at he
      obtain ⟨w, hw, rfl⟩ := he
      obtain ⟨hw1, hw2, hc1, hc2⟩ := hcfg.2 w hw
      refine ⟨by positivity, by linarith, by positivity, by linarith⟩
    · rw [List.Sorted, List.pairwise_map]
      refine hcfg.1.imp ?_
      intro a b hab
      show now + a.1 ≤ now + b.1
      omega

/-- C4: every cache-mutating operation (`fetch_schedule`, including its
demo-schedule path) preserves the cache invariant: every cached entry
has warm and cool within `[0, 1]` (source 0-100 values divided by 100)
and the cached entry sequence is in non-decreasing `unix_time` order;
the demo path needs the configured waypoints to be 0-100 percentages in
non-decreasing offset order, which `config_template`'s are. -/
theorem fetch_preserves_invariant (cfg : Config)
    (response : Option ScheduleResponse) (now dayStart : ℤ) (st : CacheState)
    (hcfg : demo_config_ok cfg) (hst : cache_invariant st) :
    cache_invariant (fetch_schedule cfg response now dayStart st).2 := by
  cases response with
  | none => exact hst
  | some r =>
    simp only [fetch_schedule]
    split_ifs with h1 h2 h3
    · exact setup_demo_invariant cfg now _ hcfg hst
    · exact hst
    · exact hst
    · unfold cache_invariant
      exact compute_timestamps_invariant dayStart (r.utc_offset.getD 0)
        (r.entries.getD (r.schedule.getD []))

theorem fetch_preserves_invariant_witness :
    demo_config_ok config_template ∧
    cache_invariant
      { mode := "dayNight", cached_schedule := none,
        utc_offset := 0, last_fetch_time := 0 } ∧
    cache_invariant
      (fetch_schedule config_template
        (some { mode := some "demo", serverTime := none, utc_offset := none,
                entries := none, schedule := none })
        50 0
        { mode := "dayNight", cached_schedule := none,
          utc_offset := 0, last_fetch_time := 0 }).2 :=
  ⟨⟨by decide, by decide⟩, trivial,
   fetch_preserves_invariant config_template
     (some { mode := some "demo", serverTime := none, utc_offset := none,
             entries := none, schedule := none })
     50 0
     { mode := "dayNight", cached_schedule := none,
       utc_offset := 0, last_fetch_time := 0 }
     ⟨by decide, by decide⟩ trivial⟩

end SunriseLamp
